import Mathlib

/-!
Verification of `factors.py`, a demonstration of Shor's algorithm specialized
to factoring N = 15.  The Python source is shallowly embedded below:

* `c_amod15` (source lines 7-37): the hard-coded controlled multiplication-by-a
  mod 15 operator, embedded as a transform on 4-bit states `Fin 4 → Bool`
  (the underlying permutation circuit, before the `control()` wrapper).
* `phase_estimation` (lines 39-84): the circuit construction is embedded as a
  list of abstract instructions, and the returned value as a rational function
  of the externally sampled integer.
* the driver (`__main__`, lines 121-151): period extraction through
  `Fraction.limit_denominator`, the gcd guesses and the acceptance test,
  embedded as pure functions, with one loop iteration as a state transformer.
-/

/-- State of the 4-qubit target register, restricted to computational basis
states: bit position `k` holds the Boolean `f k`. -/
abbrev BitState := Fin 4 → Bool

/-- Effect of `U.swap(i, j)` (source lines 20-29) on a basis state: the values
at positions `i` and `j` are exchanged. -/
def swapQ (i j : Fin 4) (f : BitState) : BitState :=
  fun k => if k = i then f j else if k = j then f i else f k

/-- Effect of the `U.x(q)` loop (source lines 30-32): every bit is
complemented. -/
def xAll (f : BitState) : BitState :=
  fun k => !(f k)

/-- Body of `c_amod15` after the membership check (source lines 18-32): the
gates are applied to the state in source order, so the first `swap` in the
source acts first. -/
def amod15Body (a : ℕ) (f : BitState) : BitState :=
  let f1 := if a ∈ [2, 13] then swapQ 0 1 (swapQ 1 2 (swapQ 2 3 f)) else f
  let f2 := if a ∈ [7, 8] then swapQ 2 3 (swapQ 1 2 (swapQ 0 1 f1)) else f1
  let f3 := if a ∈ [4, 11] then swapQ 0 2 (swapQ 1 3 f2) else f2
  if a ∈ [7, 11, 13] then xAll f3 else f3

/-- Embedding of `c_amod15(a, N)` (source lines 7-37): the multiplier check of
lines 16-17 raising `ValueError` becomes an `Except.error`; on success the
returned operator is the 4-bit transform built by lines 18-32.  The `N`
argument is only used for the gate's display name in the source. -/
def c_amod15 (a N : ℕ) : Except String (BitState → BitState) :=
  if a ∈ [2, 4, 7, 8, 11, 13] then
    Except.ok (amod15Body a)
  else
    Except.error "'a' must not have common factors with 15"

/-- The swap chain (2,3),(1,2),(0,1) named by the spec for a in {2,13}
(claim wording: cyclic right-rotate). -/
def chainRight : BitState → BitState :=
  swapQ 0 1 ∘ swapQ 1 2 ∘ swapQ 2 3

/-- The swap chain (0,1),(1,2),(2,3) named by the spec for a in {7,8}
(claim wording: cyclic left-rotate). -/
def chainLeft : BitState → BitState :=
  swapQ 2 3 ∘ swapQ 1 2 ∘ swapQ 0 1

/-- The pair swaps (1,3) and (0,2) named by the spec for a in {4,11}. -/
def pairSwaps : BitState → BitState :=
  swapQ 0 2 ∘ swapQ 1 3

/-- Spec-side operator table for claim C5, written from the spec's case
analysis: the swap chain of the multiplier's class, composed with a full
complement afterwards for a in {7,11,13}. -/
def amod15Spec : ℕ → (BitState → BitState)
  | 2 => chainRight
  | 13 => xAll ∘ chainRight
  | 8 => chainLeft
  | 7 => xAll ∘ chainLeft
  | 4 => pairSwaps
  | 11 => xAll ∘ pairSwaps
  | _ => id

/-- Multiplicative order of `a` mod 15: the least positive `k ≤ 15` with
`a ^ k % 15 = 1` (0 if none exists). -/
def multOrderMod15 (a : ℕ) : ℕ :=
  (((List.range 16).filter (fun k => k != 0 && a ^ k % 15 == 1)).head?).getD 0

example : multOrderMod15 2 = 4 := by decide
example : multOrderMod15 4 = 2 := by decide
example : multOrderMod15 7 = 4 := by decide
example : multOrderMod15 8 = 4 := by decide
example : multOrderMod15 11 = 2 := by decide
example : multOrderMod15 13 = 4 := by decide

example : ∀ f : BitState, amod15Body 2 f = chainRight f := by decide
example : ∀ f : BitState, amod15Body 13 f = (xAll ∘ chainRight) f := by decide

/-- Convergent loop of CPython's `Fraction.limit_denominator` (called at source
line 138).  State `(p0, q0, p1, q1, n, d)` follows the Python locals; each
iteration takes `a = n // d`, breaks when the next convergent denominator
`q2 = q0 + a * q1` would exceed `maxDen`, and otherwise shifts the convergents
and continues with `(n, d) := (d, n - a * d)`.  Python's `//` and `%` on a
positive divisor are `Int.ediv` and `Int.emod`.  The recursion is driven by a
fuel counter for structural termination: `d` strictly decreases on every
iteration, so with initial fuel `d + 1` the fuel is never exhausted while
`d > 0`, and the Python loop never reaches `d = 0` (the convergent
denominators reach the original denominator, which exceeds `maxDen`, first),
so both guards exit through the same break path as the source. -/
def ldLoop (maxDen : ℕ) : ℕ → ℤ → ℤ → ℤ → ℤ → ℤ → ℕ → ℤ × ℤ × ℤ × ℤ × ℤ × ℕ
  | 0, p0, q0, p1, q1, n, d => (p0, q0, p1, q1, n, d)
  | fuel + 1, p0, q0, p1, q1, n, d =>
    if d = 0 then (p0, q0, p1, q1, n, d)
    else
      let a := Int.ediv n d
      let q2 := q0 + a * q1
      if (maxDen : ℤ) < q2 then (p0, q0, p1, q1, n, d)
      else ldLoop maxDen fuel p1 q1 (p0 + a * p1) q2 d (Int.emod n d).toNat

/-- Embedding of CPython's `Fraction.limit_denominator(max_denominator)`
(called at source line 138 as `Fraction(phase).limit_denominator(N)`): raises
for `max_denominator < 1`, returns the fraction itself when its denominator
is already within the bound, and otherwise picks between the last convergent
inside the bound and the best semiconvergent.  Lean's `ℚ` is normalized
(coprime numerator/denominator, positive denominator) exactly like Python's
`Fraction`. -/
def limit_denominator (q : ℚ) (maxDen : ℕ) : Except String ℚ :=
  if maxDen < 1 then Except.error "max_denominator should be at least 1"
  else if q.den ≤ maxDen then Except.ok q
  else
    let r := ldLoop maxDen (q.den + 1) 0 1 1 0 q.num q.den
    let p0 := r.1
    let q0 := r.2.1
    let p1 := r.2.2.1
    let q1 := r.2.2.2.1
    let d := r.2.2.2.2.2
    let k := Int.ediv ((maxDen : ℤ) - q0) q1
    if 2 * (d : ℤ) * (q0 + k * q1) ≤ (q.den : ℤ)
    then Except.ok (Rat.divInt p1 q1)
    else Except.ok (Rat.divInt (p0 + k * p1) (q0 + k * q1))

deriving instance DecidableEq for Except

/-- Period extraction of source lines 138-139:
`r = Fraction(phase).limit_denominator(N).denominator`. -/
def extract_period (phase : ℚ) (N : ℕ) : Except String ℕ :=
  (limit_denominator phase N).map Rat.den

example : extract_period (Rat.divInt 3 8) 15 = Except.ok 8 := by decide
example : extract_period 0 15 = Except.ok 1 := by decide
example : extract_period (Rat.divInt 141 256) 15 = Except.ok 9 := by decide

/-- Factor guesses of source line 145:
`[gcd(a ** (r // 2) - 1, N), gcd(a ** (r // 2) + 1, N)]`, with Python's
integer arithmetic embedded in `ℤ` (`math.gcd` of possibly negative integers
is `Int.gcd`). -/
def guesses (a : ℤ) (r N : ℕ) : List ℕ :=
  [Int.gcd (a ^ (r / 2) - 1) N, Int.gcd (a ^ (r / 2) + 1) N]

/-- Acceptance test of source line 148:
`guess not in [1, N] and (N % guess) == 0`. -/
def acceptGuess (N : ℕ) (g : ℕ) : Bool :=
  !(decide (g ∈ [1, N])) && (N % g == 0)

/-- Guesses the attempt reports as factors (the `for` loop of source lines
147-151 prints exactly the guesses passing `acceptGuess`, in list order). -/
def reportedFactors (a : ℤ) (r N : ℕ) : List ℕ :=
  (guesses a r N).filter (acceptGuess N)

example : reportedFactors 8 4 15 = [3, 5] := by decide
example : reportedFactors 8 1 15 = [] := by decide

/-- Abstract instruction appended to the circuit by `phase_estimation`
(source lines 58-81).  `capp c` records one composition of the controlled
operation with control qubit `c` (line 69); `prepPsi` the composition of
`psi_prep` (line 61); `hGate` a Hadamard on a control qubit (line 67);
`qftInv n` the inverse QFT on the `n` control qubits (line 75); `meas` the
measurement of the control register (line 81). -/
inductive Instr where
  | prepPsi : Instr
  | hGate : ℕ → Instr
  | capp : ℕ → Instr
  | qftInv : ℕ → Instr
  | meas : Instr
deriving DecidableEq

/-- Instructions appended by the estimation loop of source lines 66-73 for
control qubits `0, …, p - 1`: for qubit `index`, one Hadamard followed by
`2 ^ index` compositions of the controlled operation. -/
def peLoop : ℕ → List Instr
  | 0 => []
  | p + 1 => peLoop p ++ Instr.hGate p :: List.replicate (2 ^ p) (Instr.capp p)

/-- The full instruction sequence built by `phase_estimation` with `precision`
control qubits (source lines 58-81): state preparation, the estimation loop,
the inverse QFT, and the measurement. -/
def peCircuit (precision : ℕ) : List Instr :=
  Instr.prepPsi :: (peLoop precision ++ [Instr.qftInv precision, Instr.meas])

/-- Modelled from the spec: the constructor checks of the external circuit
library (`QuantumRegister(precision)` at source line 54 and the width check
of `compose` at lines 69-73, where the controlled operation acts on
`1 + opTargetWidth` qubits and is composed onto `[qubit] + target_register`
with the target register sized to `psi_prep.num_qubits`) are not part of this
repository; per the spec, construction fails with a construction error iff
`precision < 1` or the widths mismatch, and otherwise the circuit of
`peCircuit` is built. -/
def buildPhaseEstimation (opTargetWidth prepWidth precision : ℕ) :
    Except String (List Instr) :=
  if precision < 1 then Except.error "construction error: precision"
  else if prepWidth ≠ opTargetWidth then Except.error "construction error: width mismatch"
  else Except.ok (peCircuit precision)

/-- Value returned by `phase_estimation` (source lines 83-84) as a function of
the integer sampled by the external one-shot sampler: `measurement / 2 **
precision`, computed exactly in `ℚ` (the Python float division is exact here
since the sampler's outcome is a `precision`-bit integer). -/
def phaseEstimationValue (precision measurement : ℕ) : ℚ :=
  (measurement : ℚ) / 2 ^ precision

/-- Mutable state of the driver loop (source lines 124-130): `FACTOR_FOUND`
and `ATTEMPT`. -/
structure DriverState where
  factorFound : Bool
  attempt : ℕ
deriving DecidableEq

/-- One iteration of the driver's `while` loop (source lines 129-151), as a
function of the phase returned by `phase_estimation` for this attempt (the
sampling is external randomness).  The attempt counter is incremented, the
fraction is always computed (line 138, which can only raise for `N < 1`),
and only when the phase is nonzero are the guesses computed and the accepted
ones reported; `FACTOR_FOUND` becomes true iff some guess is accepted.
Returns the new state together with the factors reported this attempt. -/
def driverStep (a : ℤ) (N : ℕ) (phase : ℚ) (st : DriverState) :
    Except String (DriverState × List ℕ) :=
  let st1 : DriverState := ⟨st.factorFound, st.attempt + 1⟩
  match limit_denominator phase N with
  | Except.error e => Except.error e
  | Except.ok frac =>
    let r := frac.den
    if phase ≠ 0 then
      let rep := (guesses a r N).filter (acceptGuess N)
      Except.ok (⟨st1.factorFound || !rep.isEmpty, st1.attempt⟩, rep)
    else
      Except.ok (st1, [])

example : driverStep 8 15 (Rat.divInt 3 4) ⟨false, 0⟩ =
    Except.ok (⟨true, 1⟩, [3, 5]) := by decide
example : driverStep 8 15 0 ⟨false, 2⟩ = Except.ok (⟨false, 3⟩, []) := by decide
example : driverStep 8 15 1 ⟨false, 0⟩ = Except.ok (⟨false, 1⟩, []) := by decide

/-- C1: for every rational phase `p/q` in lowest terms with `q ≤ N` (in `ℚ`
the denominator is always the lowest-terms one), `extract_period` returns
exactly `q`; and for phase 0 (with any valid bound `M ≥ 1`) it returns 1. -/
theorem C1_period_extraction_roundtrip (phase : ℚ) (N M : ℕ)
    (hden : phase.den ≤ N) (hM : 1 ≤ M) :
    extract_period phase N = Except.ok phase.den ∧
    extract_period 0 M = Except.ok 1 := by
  have hd1 : 0 < phase.den := phase.den_pos
  have hN : ¬ N < 1 := by omega
  have hM1 : ¬ M < 1 := by omega
  have h0 : (0 : ℚ).den = 1 := rfl
  constructor
  · unfold extract_period limit_denominator
    rw [if_neg hN, if_pos hden]
    rfl
  · unfold extract_period limit_denominator
    rw [if_neg hM1, if_pos (by omega : (0 : ℚ).den ≤ M)]
    rfl

theorem C1_witness :
    extract_period (Rat.divInt 5 8) 15 = Except.ok (Rat.divInt 5 8).den ∧
    extract_period 0 15 = Except.ok 1 :=
  C1_period_extraction_roundtrip (Rat.divInt 5 8) 15 15 (by decide) (by decide)

/-- C2: the guess list is exactly
`[gcd(a^(r//2) - 1, N), gcd(a^(r//2) + 1, N)]`; a guess is reported as a
factor iff it is not in `{1, N}` and `N mod guess = 0`; and a reported guess
is never 1, never `N`, and always divides `N`. -/
theorem C2_guesses_and_acceptance (a : ℤ) (r N : ℕ) (g : ℕ)
    (hg : g ∈ guesses a r N) :
    guesses a r N = [Int.gcd (a ^ (r / 2) - 1) N, Int.gcd (a ^ (r / 2) + 1) N] ∧
    (g ∈ reportedFactors a r N ↔ g ∉ [1, N] ∧ N % g = 0) ∧
    (g ∈ reportedFactors a r N → g ≠ 1 ∧ g ≠ N ∧ g ∣ N) := by
  refine ⟨rfl, ?_, ?_⟩
  · simp [reportedFactors, List.mem_filter, acceptGuess, hg, List.mem_cons,
      not_or]
  · intro hrep
    have hacc := (List.mem_filter.mp hrep).2
    simp only [acceptGuess, Bool.and_eq_true, Bool.not_eq_true',
      decide_eq_false_iff_not, List.mem_cons, List.mem_singleton,
      List.not_mem_nil, or_false, not_or, beq_iff_eq] at hacc
    exact ⟨hacc.1.1, hacc.1.2, Nat.dvd_of_mod_eq_zero hacc.2⟩

theorem C2_witness :
    guesses 8 4 15 =
      [Int.gcd ((8 : ℤ) ^ (4 / 2) - 1) 15, Int.gcd ((8 : ℤ) ^ (4 / 2) + 1) 15] ∧
    (3 ∈ reportedFactors 8 4 15 ↔ 3 ∉ [1, 15] ∧ 15 % 3 = 0) ∧
    (3 ∈ reportedFactors 8 4 15 → 3 ≠ 1 ∧ 3 ≠ 15 ∧ 3 ∣ 15) :=
  C2_guesses_and_acceptance 8 4 15 3 (by decide)

/-- C4: the value returned by `phase_estimation` is exactly the sampled
integer divided by `2 ^ precision`, and for any sample the external sampler
can produce (an integer below `2 ^ precision`) it lies in `[0, 1)`. -/
theorem C4_phase_value_range (precision m : ℕ) (h : m < 2 ^ precision) :
    phaseEstimationValue precision m = (m : ℚ) / 2 ^ precision ∧
    0 ≤ phaseEstimationValue precision m ∧
    phaseEstimationValue precision m < 1 := by
  refine ⟨rfl, ?_, ?_⟩
  · unfold phaseEstimationValue
    positivity
  · unfold phaseEstimationValue
    rw [div_lt_one (by positivity)]
    exact_mod_cast h

theorem C4_witness :
    phaseEstimationValue 8 0 = (0 : ℚ) / 2 ^ 8 ∧
    0 ≤ phaseEstimationValue 8 0 ∧ phaseEstimationValue 8 0 < 1 :=
  C4_phase_value_range 8 0 (by decide)

/-- C7: `c_amod15 a N` succeeds iff `a` is one of the units 2, 4, 7, 8, 11,
13, and its only outcomes are the built operator or the `ValueError` of
source line 17 (the `Except` propagates: nothing in the program catches
it). -/
theorem C7_invalid_multiplier (a N : ℕ) :
    ((c_amod15 a N).isOk = true ↔ a ∈ [2, 4, 7, 8, 11, 13]) ∧
    (c_amod15 a N = Except.ok (amod15Body a) ∨
      c_amod15 a N = Except.error "'a' must not have common factors with 15") := by
  unfold c_amod15
  by_cases h : a ∈ [2, 4, 7, 8, 11, 13] <;>
    simp [h, Except.isOk, Except.toBool]

/-- C8: in an attempt with estimated phase 0 (for any modulus `N ≥ 1`, in
particular the program's `N = 15`), the driver raises nothing, reports no
factor, and leaves the state unchanged except for incrementing the attempt
counter. -/
theorem C8_zero_phase_discarded (a : ℤ) (N : ℕ) (st : DriverState)
    (hN : 1 ≤ N) :
    driverStep a N 0 st = Except.ok (⟨st.factorFound, st.attempt + 1⟩, []) := by
  unfold driverStep limit_denominator
  have hN1 : ¬ N < 1 := by omega
  have h0 : (0 : ℚ).den = 1 := rfl
  rw [if_neg hN1, if_pos (by omega : (0 : ℚ).den ≤ N)]
  simp

theorem C8_witness :
    driverStep 8 15 0 ⟨false, 2⟩ = Except.ok (⟨false, 3⟩, []) :=
  C8_zero_phase_discarded 8 15 ⟨false, 2⟩ (by decide)

/-- C10: when both guesses pass the acceptance test, the attempt reports both
of them (the first accepted guess does not short-circuit the second): the
reported list is the full two-element guess list, and the loop condition is
only re-examined after the whole attempt. -/
theorem C10_no_short_circuit (a : ℤ) (r N : ℕ)
    (h1 : acceptGuess N (Int.gcd (a ^ (r / 2) - 1) N) = true)
    (h2 : acceptGuess N (Int.gcd (a ^ (r / 2) + 1) N) = true) :
    reportedFactors a r N =
      [Int.gcd (a ^ (r / 2) - 1) N, Int.gcd (a ^ (r / 2) + 1) N] := by
  simp [reportedFactors, guesses, List.filter, h1, h2]

theorem C10_witness :
    reportedFactors 8 4 15 =
      [Int.gcd ((8 : ℤ) ^ (4 / 2) - 1) 15, Int.gcd ((8 : ℤ) ^ (4 / 2) + 1) 15] :=
  C10_no_short_circuit 8 4 15 (by decide) (by decide)

lemma peLoop_count_capp (i : ℕ) :
    ∀ p, (peLoop p).count (Instr.capp i) = if i < p then 2 ^ i else 0 := by
  intro p
  induction p with
  | zero => simp [peLoop]
  | succ p ih =>
    rw [peLoop, List.count_append, ih, List.count_cons, List.count_replicate]
    rcases Nat.lt_trichotomy i p with h | h | h
    · have h1 : i < p + 1 := by omega
      have h2 : ¬ (Instr.capp p == Instr.capp i) = true := by
        simp
        omega
      simp [h, h1, h2]
    · subst h
      simp [Nat.lt_irrefl]
    · have h1 : ¬ i < p := by omega
      have h2 : ¬ i < p + 1 := by omega
      have h3 : ¬ (Instr.capp p == Instr.capp i) = true := by
        simp
        omega
      simp [h1, h2, h3]

lemma peLoop_capp_mem (j : ℕ) :
    ∀ p, Instr.capp j ∈ peLoop p → j < p := by
  intro p
  induction p with
  | zero => simp [peLoop]
  | succ p ih =>
    intro hm
    rw [peLoop, List.mem_append] at hm
    rcases hm with hm | hm
    · have := ih hm
      omega
    · simp only [List.mem_cons, List.mem_replicate] at hm
      rcases hm with hm | hm
      · exact absurd hm (by simp)
      · have : j = p := by
          have := hm.2
          simpa using this
        omega

/-- C3: in the circuit built by `phase_estimation` with `precision` control
qubits, the controlled operation is composed exactly `2 ^ i` times with
control qubit `i`, for every control qubit `i < precision`; and every
composition of the controlled operation in the circuit is controlled by some
qubit below `precision`. -/
theorem C3_controlled_powers (precision i j : ℕ) (hi : i < precision)
    (hj : Instr.capp j ∈ peCircuit precision) :
    (peCircuit precision).count (Instr.capp i) = 2 ^ i ∧ j < precision := by
  constructor
  · rw [peCircuit, List.count_cons, List.count_append, peLoop_count_capp,
      if_pos hi]
    simp
  · rw [peCircuit, List.mem_cons] at hj
    rcases hj with hj | hj
    · exact absurd hj (by simp)
    · rw [List.mem_append] at hj
      rcases hj with hj | hj
      · exact peLoop_capp_mem j precision hj
      · exact absurd hj (by simp)

theorem C3_witness :
    (peCircuit 3).count (Instr.capp 2) = 2 ^ 2 ∧ 1 < 3 :=
  C3_controlled_powers 3 2 1 (by decide) (by decide)

/-- C5: for each valid multiplier, `c_amod15` builds exactly the transform
the spec describes: the swap chain (2,3),(1,2),(0,1) for a in {2,13}, the
swap chain (0,1),(1,2),(2,3) for a in {7,8}, the pair swaps (1,3),(0,2) for
a in {4,11}, composed — after the swaps — with a complement of all four bits
for a in {7,11,13}. -/
theorem C5_operator_table :
    c_amod15 2 15 = Except.ok chainRight ∧
    c_amod15 13 15 = Except.ok (xAll ∘ chainRight) ∧
    c_amod15 8 15 = Except.ok chainLeft ∧
    c_amod15 7 15 = Except.ok (xAll ∘ chainLeft) ∧
    c_amod15 4 15 = Except.ok pairSwaps ∧
    c_amod15 11 15 = Except.ok (xAll ∘ pairSwaps) :=
  ⟨by decide, by decide, by decide, by decide, by decide, by decide⟩

/-- C6: for each valid multiplier `a`, the 4-bit transform built by
`c_amod15(a, 15)`, iterated `multOrderMod15 a` times — with `multOrderMod15`
the multiplicative order: positive, exponentiating to 1 mod 15, and minimal
— is the identity on the 4-bit state space. -/
theorem C6_operator_order :
    (∀ a ∈ [2, 4, 7, 8, 11, 13],
      0 < multOrderMod15 a ∧ a ^ multOrderMod15 a % 15 = 1 ∧
      ∀ k < multOrderMod15 a, 0 < k → a ^ k % 15 ≠ 1) ∧
    (amod15Body 2)^[multOrderMod15 2] = id ∧
    (amod15Body 4)^[multOrderMod15 4] = id ∧
    (amod15Body 7)^[multOrderMod15 7] = id ∧
    (amod15Body 8)^[multOrderMod15 8] = id ∧
    (amod15Body 11)^[multOrderMod15 11] = id ∧
    (amod15Body 13)^[multOrderMod15 13] = id := by
  decide

/-- C9: construction of the phase-estimation circuit succeeds, yielding the
`peCircuit` instruction sequence, iff `precision ≥ 1` and the width of the
state-preparation register matches the operator's target width; otherwise it
fails with a construction error. -/
theorem C9_construction_errors (opTargetWidth prepWidth precision : ℕ) :
    ((buildPhaseEstimation opTargetWidth prepWidth precision).isOk = true ↔
      1 ≤ precision ∧ prepWidth = opTargetWidth) ∧
    (buildPhaseEstimation opTargetWidth prepWidth precision =
        Except.ok (peCircuit precision) ↔
      1 ≤ precision ∧ prepWidth = opTargetWidth) := by
  unfold buildPhaseEstimation
  split_ifs with h1 h2 <;>
    simp [Except.isOk, Except.toBool] <;>
    omega

